import Mathlib

/- Verification of the RecetaGram data layer (src/app.js).

   The file embeds, as executable Lean definitions, the three parts of the
   program that the properties below talk about:
   - the record store `dataSdk` (an in-memory array of tagged records,
     mirrored into a localStorage slot and broadcast to subscribers),
   - the preference store `elementSdk` (a flat configuration mapping), and
   - the like-toggling logic `toggleLike` on recipe records.

   Mutable JS state is passed explicitly; each operation returns its new
   state, the list of observer notifications it fired, and its result value. -/

namespace RecetaGram

/-- A record of the flat collection.  JS records are heterogeneous objects;
the embedding keeps the fields the verified code inspects: `id` (the store
keys every operation on it), `rtype`/`username` (discriminant and the field
the seed and scenarios use), and `likes`/`likedBy` (the fields `toggleLike`
reads and writes).  `likedBy` is the raw comma-delimited string, kept as a
list of characters; `likes` is `none` when the JS field is undefined.  The
remaining text fields (title, description, timestamps, ...) are bundled
uninterpreted in `payload`: no verified operation reads them. -/
structure Record where
  id : String
  rtype : String := ""
  username : String := ""
  likes : Option Int := none
  likedBy : List Char := []
  payload : String := ""
deriving DecidableEq

/-- Content of the localStorage slot `recetagram_data`: missing (`getItem`
returns null), present but not valid JSON, or a well-formed serialized
collection. -/
inductive StoredValue where
  | absent : StoredValue
  | malformed : String → StoredValue
  | wellFormed : List Record → StoredValue
deriving DecidableEq

/-- State of the record store: the in-memory array `data`, the storage slot,
and the registered subscribers (observer identities, in registration order). -/
structure StoreState where
  data : List Record
  storage : StoredValue
  subscribers : List Nat
deriving DecidableEq

/-- The function load(): `JSON.parse(localStorage.getItem(KEY) || "[]")`
inside try/catch.  A missing slot parses the literal "[]"; a parse error is
caught; both yield the empty collection. -/
def load : StoredValue → List Record
  | .absent => []
  | .malformed _ => []
  | .wellFormed rs => rs

/-- The function save(): `localStorage.setItem(KEY, JSON.stringify(data))` —
the whole in-memory collection is serialized into the slot as one unit. -/
def save (s : StoreState) : StoreState :=
  { s with storage := .wellFormed s.data }

/-- The function notify(): `subscribers.forEach(h => h.onDataChanged([...data]))`.
One event per subscriber, in registration order, carrying a copy of the
current collection (the spread `[...data]` builds a fresh array, so the
snapshot is the value of `data` at notification time). -/
def notifyEvents (s : StoreState) : List (Nat × List Record) :=
  s.subscribers.map (fun ob => (ob, s.data))

/-- Result value of a store operation (`{ isOk, error?, data? }`). -/
structure OpResult where
  isOk : Bool
  error : Option String := none
  returned : Option Record := none
deriving DecidableEq

/-- The method dataSdk.init(handler): pushes the handler unless it is already
registered, then notifies all subscribers with the current collection. -/
def dataInit (s : StoreState) (handler : Option Nat) :
    StoreState × List (Nat × List Record) × OpResult :=
  let s1 := match handler with
    | some h => if h ∈ s.subscribers then s
                else { s with subscribers := s.subscribers ++ [h] }
    | none => s
  (s1, notifyEvents s1, { isOk := true })

/-- The method dataSdk.create(obj): `data.push(obj); save(); notify()`. -/
def dataCreate (s : StoreState) (obj : Record) :
    StoreState × List (Nat × List Record) × OpResult :=
  let s1 := save { s with data := s.data ++ [obj] }
  (s1, notifyEvents s1, { isOk := true, returned := some obj })

/-- Replacement of the first record whose id matches: the effect of
`const i = data.findIndex(x => x.id === obj.id); data[i] = obj`, with `none`
when findIndex returns -1. -/
def replaceById (l : List Record) (obj : Record) : Option (List Record) :=
  match l with
  | [] => none
  | x :: xs =>
    if x.id = obj.id then some (obj :: xs)
    else (replaceById xs obj).map (fun m => x :: m)

/-- The method dataSdk.update(obj): replaces the record with obj's id wholly;
when the id is absent it returns `{ isOk:false, error:"not_found" }` without
saving or notifying. -/
def dataUpdate (s : StoreState) (obj : Record) :
    StoreState × List (Nat × List Record) × OpResult :=
  match replaceById s.data obj with
  | none => (s, [], { isOk := false, error := some "not_found" })
  | some newData =>
    let s1 := save { s with data := newData }
    (s1, notifyEvents s1, { isOk := true })

/-- The method dataSdk.delete(id): `data = data.filter(x => x.id !== id)`,
then save and notify unconditionally; isOk reports whether the length
changed. -/
def dataDelete (s : StoreState) (i : String) :
    StoreState × List (Nat × List Record) × OpResult :=
  let s1 := save { s with data := s.data.filter (fun x => !(x.id == i)) }
  (s1, notifyEvents s1, { isOk := decide (s1.data.length ≠ s.data.length) })

/-- The method dataSdk.reset(): `data = []; save(); notify()`. -/
def dataReset (s : StoreState) :
    StoreState × List (Nat × List Record) × OpResult :=
  let s1 := save { s with data := [] }
  (s1, notifyEvents s1, { isOk := true })

/-- The demo records seedIfEmpty() pushes on first load; `now` stands for
`new Date().toISOString()`.  Only the fields the embedding models are
spelled out. -/
def seedRecords (now : String) : List Record :=
  [ { id := "u_demo", rtype := "user", username := "demo", payload := now },
    { id := "u_ana", rtype := "user", username := "ana", payload := now },
    { id := "f1", rtype := "friendship", payload := now },
    { id := "r1", rtype := "recipe", likes := some 1,
      likedBy := "u_demo".toList, payload := now } ]

/-- The function seedIfEmpty(): inserts the demo records and saves, but only
when the collection is empty after load. -/
def seedIfEmpty (now : String) (s : StoreState) : StoreState :=
  if s.data.length > 0 then s
  else save { s with data := s.data ++ seedRecords now }

/-- Module initialization of the data SDK: `load(); seedIfEmpty();` starting
with no subscribers. -/
def initStore (now : String) (v : StoredValue) : StoreState :=
  seedIfEmpty now { data := load v, storage := v, subscribers := [] }

/-- A mutating store operation, for reasoning about sequences of calls. -/
inductive StoreOp where
  | create : Record → StoreOp
  | update : Record → StoreOp
  | del : String → StoreOp
  | reset : StoreOp
deriving DecidableEq

/-- Dispatch of one mutating call, returning state, events and result. -/
def applyOpFull (s : StoreState) : StoreOp → StoreState × List (Nat × List Record) × OpResult
  | .create obj => dataCreate s obj
  | .update obj => dataUpdate s obj
  | .del i => dataDelete s i
  | .reset => dataReset s

/-- State after one mutating call. -/
def applyOp (s : StoreState) (op : StoreOp) : StoreState :=
  (applyOpFull s op).1

/-- State after a sequence of mutating calls. -/
def applyOps (s : StoreState) : List StoreOp → StoreState
  | [] => s
  | op :: ops => applyOps (applyOp s op) ops

/-- A primitive JS configuration value (the config mapping is flat: strings
and numbers only). -/
inductive JsVal where
  | str : String → JsVal
  | num : Int → JsVal
deriving DecidableEq

/-- A JS object used as a flat map: keys valued `some` are present. -/
def Config := String → Option JsVal

/-- Object spread `{ ...a, ...b }`: keys of `b` win, keys only in `a`
fill in. -/
def spread (a b : Config) : Config :=
  fun k => match b k with
    | some v => some v
    | none => a k

/-- State of the preference SDK.  `config` is the module-local variable;
`exposed` is the `config` property of the `window.elementSdk` object literal,
which captures the object reference the variable held at module start —
later assignments `config = {...}` rebind the local variable only and never
mutate the captured object; `stored` is the localStorage slot (as parsed);
`hasCb` records whether a change callback was stored. -/
structure ElemState where
  config : Config
  exposed : Config
  stored : Config
  hasCb : Bool

/-- Module start of the element SDK: loadCfg() parses the slot (missing or
malformed content yields the empty mapping, as with the record store), then
the `window.elementSdk` literal captures that mapping as its `config`
property. -/
def elemLoadState (persisted : Config) : ElemState :=
  { config := persisted, exposed := persisted, stored := persisted,
    hasCb := false }

/-- The method elementSdk.init({defaultConfig, onConfigChange}):
`config = { ...defaultConfig, ...config }; saveCfg(); onConfigChangeCb = cb;
applyChange()`.  Returns the new state and the list of configurations the
callback was invoked with. -/
def elemInit (s : ElemState) (defaultConfig : Config) (hasCallback : Bool) :
    ElemState × List Config :=
  let merged := spread defaultConfig s.config
  ({ s with config := merged, stored := merged, hasCb := hasCallback },
   if hasCallback then [merged] else [])

/-- The method elementSdk.setConfig(patch):
`config = { ...config, ...patch }; saveCfg(); applyChange()`. -/
def elemSetConfig (s : ElemState) (patch : Config) : ElemState × List Config :=
  let merged := spread s.config patch
  ({ s with config := merged, stored := merged },
   if s.hasCb then [merged] else [])

/-- State after a sequence of setConfig calls. -/
def applyPatches (s : ElemState) : List Config → ElemState
  | [] => s
  | p :: ps => applyPatches (elemSetConfig s p).1 ps

/-- JS `v || d` on a config read: undefined, the empty string and 0 are
falsy and fall through to the fallback. -/
def jsOrVal : Option JsVal → JsVal → JsVal
  | some (.str t), d => if t = "" then d else .str t
  | some (.num n), d => if n = 0 then d else .num n
  | none, d => d

/-- Label the registration submit handler restores on its button:
`window.elementSdk.config.register_button_text || defaultConfig.register_button_text`
— a read of the exposed config property. -/
def registerButtonLabel (s : ElemState) (fallback : JsVal) : JsVal :=
  jsOrVal (s.exposed "register_button_text") fallback

/-- Splitting of a character string at commas, as JS `s.split(',')`:
the empty string yields one empty piece, and every comma separates two
pieces. -/
def splitOnComma : List Char → List (List Char)
  | [] => [[]]
  | c :: cs =>
    if c = ',' then [] :: splitOnComma cs
    else (c :: (splitOnComma cs).headD []) :: (splitOnComma cs).tail

/-- Joining with commas, as JS `arr.join(',')`. -/
def joinComma : List (List Char) → List Char
  | [] => []
  | [x] => x
  | x :: xs => x ++ ',' :: joinComma xs

/-- Parsing of a likedBy field, as toggleLike does:
`recipe.likedBy ? recipe.likedBy.split(',').filter(id => id) : []` — split at
commas and drop empty entries (the guard and the filter agree on the empty
string). -/
def parseLikedBy (s : List Char) : List (List Char) :=
  (splitOnComma s).filter (fun e => !e.isEmpty)

/-- The record transformation inside toggleLike(recipeId): parse the liker
list; if the user is in it, splice out its first occurrence and clamp the
decremented count at 0; otherwise push the user and increment the count
(an undefined count reads as 0); re-join the list into the likedBy field. -/
def toggleRecipe (r : Record) (uid : List Char) : Record :=
  let arr := parseLikedBy r.likedBy
  if uid ∈ arr then
    { r with likedBy := joinComma (arr.erase uid),
             likes := some (max 0 (r.likes.getD 0 - 1)) }
  else
    { r with likedBy := joinComma (arr ++ [uid]),
             likes := some (r.likes.getD 0 + 1) }

/-- The set of distinct liker identifiers encoded in a likedBy field. -/
def likerSet (s : List Char) : List (List Char) :=
  (parseLikedBy s).dedup

theorem replaceById_eq_none (l : List Record) (obj : Record) :
    replaceById l obj = none ↔ obj.id ∉ l.map Record.id := by
  induction l with
  | nil => simp [replaceById]
  | cons x xs ih =>
    by_cases hx : x.id = obj.id
    · simp [replaceById, hx]
    · simp [replaceById, hx, Option.map_eq_none', ih]
      intro _ h
      exact hx h.symm

theorem replaceById_spec (l : List Record) (obj : Record) (m : List Record)
    (h : replaceById l obj = some m) :
    ∃ pre old post, l = pre ++ old :: post ∧ old.id = obj.id ∧
      (∀ y ∈ pre, y.id ≠ obj.id) ∧ m = pre ++ obj :: post := by
  induction l generalizing m with
  | nil => simp [replaceById] at h
  | cons x xs ih =>
    by_cases hx : x.id = obj.id
    · simp only [replaceById, if_pos hx, Option.some.injEq] at h
      exact ⟨[], x, xs, by simp, hx, by simp, by simp [h.symm]⟩
    · simp only [replaceById, if_neg hx, Option.map_eq_some'] at h
      obtain ⟨m1, hm1, rfl⟩ := h
      obtain ⟨pre, old, post, hl, hid, hpre, hm⟩ := ih m1 hm1
      refine ⟨x :: pre, old, post, by simp [hl], hid, ?_, by simp [hm]⟩
      intro y hy
      rcases List.mem_cons.mp hy with rfl | hy2
      · exact hx
      · exact hpre y hy2

/-- C1: update with an absent identifier fails with not_found, leaves the
in-memory and persisted collections unchanged and fires no notification;
update with a present identifier replaces the stored record whole, in place,
persists and notifies. -/
theorem update_contract (s : StoreState) (obj : Record) :
    (obj.id ∉ s.data.map Record.id →
       dataUpdate s obj =
         (s, [], { isOk := false, error := some "not_found",
                   returned := none })) ∧
    (obj.id ∈ s.data.map Record.id →
       ∃ pre old post,
         s.data = pre ++ old :: post ∧
         old.id = obj.id ∧
         (∀ y ∈ pre, y.id ≠ obj.id) ∧
         (dataUpdate s obj).1.data = pre ++ obj :: post ∧
         (dataUpdate s obj).1.storage = .wellFormed (pre ++ obj :: post) ∧
         (dataUpdate s obj).2.1 =
           s.subscribers.map (fun ob => (ob, pre ++ obj :: post)) ∧
         (dataUpdate s obj).2.2.isOk = true) := by
  constructor
  · intro hmem
    have hn : replaceById s.data obj = none := (replaceById_eq_none _ _).mpr hmem
    simp [dataUpdate, hn]
  · intro hmem
    cases hr : replaceById s.data obj with
    | none => exact absurd ((replaceById_eq_none _ _).mp hr) (by simp [hmem])
    | some m =>
      obtain ⟨pre, old, post, hl, hid, hpre, hm⟩ := replaceById_spec _ _ _ hr
      subst hm
      exact ⟨pre, old, post, hl, hid, hpre,
        by simp [dataUpdate, hr, save],
        by simp [dataUpdate, hr, save],
        by simp [dataUpdate, hr, save, notifyEvents],
        by simp [dataUpdate, hr]⟩

/-- Witness for C1 at a concrete input: the spec scenario of updating the
absent identifier "ghost" on a one-record store. -/
theorem update_contract_witness :
    ("ghost" : String) ∉
      (({ data := [{ id := "u1" }], storage := .wellFormed [{ id := "u1" }],
          subscribers := [0] } : StoreState)).data.map Record.id ∧
    dataUpdate
      { data := [{ id := "u1" }], storage := .wellFormed [{ id := "u1" }],
        subscribers := [0] } { id := "ghost" } =
      ({ data := [{ id := "u1" }], storage := .wellFormed [{ id := "u1" }],
         subscribers := [0] }, [],
       { isOk := false, error := some "not_found", returned := none }) :=
  ⟨by decide,
   (update_contract
     { data := [{ id := "u1" }], storage := .wellFormed [{ id := "u1" }],
       subscribers := [0] } { id := "ghost" }).1 (by decide)⟩

/-- C4: delete removes every record matching the identifier, persists and
notifies regardless of whether anything was removed, reports in isOk whether
the record count decreased, reports no-change on a missing identifier, and
is idempotent. -/
theorem delete_contract (s : StoreState) (i : String) :
    (dataDelete s i).1.data = s.data.filter (fun x => !(x.id == i)) ∧
    (dataDelete s i).1.storage = .wellFormed ((dataDelete s i).1.data) ∧
    (dataDelete s i).2.1 =
      s.subscribers.map (fun ob => (ob, (dataDelete s i).1.data)) ∧
    ((dataDelete s i).2.2.isOk = true ↔
      (dataDelete s i).1.data.length < s.data.length) ∧
    (i ∉ s.data.map Record.id →
      (dataDelete s i).2.2.isOk = false ∧ (dataDelete s i).1.data = s.data) ∧
    (dataDelete (dataDelete s i).1 i).1.data = (dataDelete s i).1.data := by
  have hfilter : ∀ l : List Record,
      (l.filter (fun x => !(x.id == i))).length ≤ l.length :=
    fun l => List.length_filter_le _ l
  have hself : (s.data.filter (fun x => !(x.id == i))).filter
      (fun x => !(x.id == i)) = s.data.filter (fun x => !(x.id == i)) := by
    rw [List.filter_filter]
    apply List.filter_congr
    intro x _
    simp
  refine ⟨rfl, rfl, rfl, ?_, ?_, ?_⟩
  · simp only [dataDelete, save]
    constructor
    · intro h
      exact Nat.lt_of_le_of_ne (hfilter s.data) (of_decide_eq_true h)
    · intro h
      exact decide_eq_true (Nat.ne_of_lt h)
  · intro hmem
    have heq : s.data.filter (fun x => !(x.id == i)) = s.data := by
      apply List.filter_eq_self.mpr
      intro x hx
      simp only [Bool.not_eq_true']
      apply beq_eq_false_iff_ne.mpr
      intro hxi
      exact hmem (List.mem_map.mpr ⟨x, hx, hxi⟩)
    constructor
    · simp [dataDelete, save, heq]
    · simp [dataDelete, save, heq]
  · simp only [dataDelete, save]
    exact hself

/-- Witness for C4 at a concrete input: deleting the absent identifier
"ghost" from a one-record store reports no-change and leaves the collection
as it was. -/
theorem delete_contract_witness :
    ("ghost" : String) ∉
      (([{ id := "u1" }] : List Record)).map Record.id ∧
    (dataDelete
      { data := [{ id := "u1" }], storage := .wellFormed [{ id := "u1" }],
        subscribers := [0] } "ghost").2.2.isOk = false ∧
    (dataDelete
      { data := [{ id := "u1" }], storage := .wellFormed [{ id := "u1" }],
        subscribers := [0] } "ghost").1.data = [{ id := "u1" }] :=
  ⟨by decide,
   (delete_contract
     { data := [{ id := "u1" }], storage := .wellFormed [{ id := "u1" }],
       subscribers := [0] } "ghost").2.2.2.2.1 (by decide)⟩

/-- C2: every mutating operation (create, update of a present identifier,
delete, reset) fires exactly one broadcast, delivering to every registered
observer, in registration order, a snapshot equal to the collection after
the mutation, whose record count equals the collection's size. -/
theorem mutation_broadcast_contract (s : StoreState) (op : StoreOp)
    (h : ∀ obj, op = StoreOp.update obj → obj.id ∈ s.data.map Record.id) :
    (applyOpFull s op).2.1 =
      s.subscribers.map (fun ob => (ob, (applyOpFull s op).1.data)) ∧
    ∀ e ∈ (applyOpFull s op).2.1,
      e.2.length = (applyOpFull s op).1.data.length := by
  have hmain : (applyOpFull s op).2.1 =
      s.subscribers.map (fun ob => (ob, (applyOpFull s op).1.data)) := by
    cases op with
    | create obj => simp [applyOpFull, dataCreate, save, notifyEvents]
    | update obj =>
      have hmem := h obj rfl
      cases hr : replaceById s.data obj with
      | none => exact absurd ((replaceById_eq_none _ _).mp hr) (by simp [hmem])
      | some m => simp [applyOpFull, dataUpdate, hr, save, notifyEvents]
    | del i => simp [applyOpFull, dataDelete, save, notifyEvents]
    | reset => simp [applyOpFull, dataReset, save, notifyEvents]
  refine ⟨hmain, ?_⟩
  intro e he
  rw [hmain] at he
  obtain ⟨ob, _, rfl⟩ := List.mem_map.mp he
  rfl

/-- Witness for C2 at a concrete input: an update of the present identifier
"u1" on a store with two subscribers broadcasts the new collection to both,
in order. -/
theorem mutation_broadcast_contract_witness :
    ("u1" : String) ∈ ([{ id := "u1" }] : List Record).map Record.id ∧
    (applyOpFull
      { data := [{ id := "u1" }], storage := .wellFormed [{ id := "u1" }],
        subscribers := [0, 1] }
      (.update { id := "u1", username := "renamed" })).2.1 =
      ([0, 1] : List Nat).map (fun ob => (ob,
        (applyOpFull
          { data := [{ id := "u1" }], storage := .wellFormed [{ id := "u1" }],
            subscribers := [0, 1] }
          (.update { id := "u1", username := "renamed" })).1.data)) :=
  ⟨by decide,
   (mutation_broadcast_contract
     { data := [{ id := "u1" }], storage := .wellFormed [{ id := "u1" }],
       subscribers := [0, 1] }
     (.update { id := "u1", username := "renamed" })
     (fun obj hob => by injection hob with h1; subst h1; decide)).1⟩

theorem persist_after_op (s : StoreState) (op : StoreOp)
    (h : load s.storage = s.data) :
    load (applyOp s op).storage = (applyOp s op).data := by
  cases op with
  | create obj => simp [applyOp, applyOpFull, dataCreate, save, load]
  | update obj =>
    cases hr : replaceById s.data obj with
    | none => simpa [applyOp, applyOpFull, dataUpdate, hr] using h
    | some m => simp [applyOp, applyOpFull, dataUpdate, hr, save, load]
  | del i => simp [applyOp, applyOpFull, dataDelete, save, load]
  | reset => simp [applyOp, applyOpFull, dataReset, save, load]

/-- C3: starting from a state whose persisted collection equals the
in-memory one, every sequence of mutating calls preserves that equality;
moreover every single call either leaves the slot untouched (the failed
update) or rewrites it with the entire new collection as one unit. -/
theorem persistence_roundtrip (s : StoreState) (ops : List StoreOp)
    (h : load s.storage = s.data) :
    load (applyOps s ops).storage = (applyOps s ops).data ∧
    ∀ t : StoreState, ∀ op : StoreOp,
      (applyOp t op).storage = t.storage ∨
      (applyOp t op).storage = .wellFormed ((applyOp t op).data) := by
  constructor
  · induction ops generalizing s with
    | nil => exact h
    | cons op ops ih => exact ih _ (persist_after_op s op h)
  · intro t op
    cases op with
    | create obj => exact Or.inr (by simp [applyOp, applyOpFull, dataCreate, save])
    | update obj =>
      cases hr : replaceById t.data obj with
      | none => exact Or.inl (by simp [applyOp, applyOpFull, dataUpdate, hr])
      | some m =>
        exact Or.inr (by simp [applyOp, applyOpFull, dataUpdate, hr, save])
    | del i => exact Or.inr (by simp [applyOp, applyOpFull, dataDelete, save])
    | reset => exact Or.inr (by simp [applyOp, applyOpFull, dataReset, save])

/-- Witness for C3 at a concrete input: the freshly initialized store (whose
seeding saved the demo collection) run through a create and a delete. -/
theorem persistence_roundtrip_witness :
    load (initStore "t" .absent).storage = (initStore "t" .absent).data ∧
    load (applyOps (initStore "t" .absent)
        [.create { id := "x1" }, .del "u_demo"]).storage =
      (applyOps (initStore "t" .absent)
        [.create { id := "x1" }, .del "u_demo"]).data :=
  ⟨by decide,
   (persistence_roundtrip (initStore "t" .absent)
     [.create { id := "x1" }, .del "u_demo"] (by decide)).1⟩

/-- C5: subscribe (dataSdk.init) appends an unseen observer to the
subscriber list, leaves the list unchanged for an already-registered one,
immediately delivers the current collection to the subscribing observer,
and returns success. -/
theorem subscribe_contract (s : StoreState) (ob : Nat) :
    (ob ∉ s.subscribers →
       (dataInit s (some ob)).1.subscribers = s.subscribers ++ [ob]) ∧
    (ob ∈ s.subscribers →
       (dataInit s (some ob)).1.subscribers = s.subscribers) ∧
    (ob, s.data) ∈ (dataInit s (some ob)).2.1 ∧
    (dataInit s (some ob)).2.2.isOk = true := by
  by_cases hm : ob ∈ s.subscribers
  · refine ⟨fun h => absurd hm h, fun _ => by simp [dataInit, hm], ?_, rfl⟩
    simp only [dataInit, hm, if_true, notifyEvents]
    exact List.mem_map.mpr ⟨ob, hm, rfl⟩
  · refine ⟨fun _ => by simp [dataInit, hm], fun h => absurd h hm, ?_, rfl⟩
    simp only [dataInit, hm, if_false, notifyEvents]
    exact List.mem_map.mpr ⟨ob, by simp, rfl⟩

/-- The user record of the C5 scenario. -/
def scenarioUser : Record := { id := "u1", rtype := "user", username := "demo" }

/-- The C5 scenario store: empty store, then one create of that user. -/
def scenarioStore : StoreState :=
  (dataCreate { data := [], storage := .wellFormed [], subscribers := [] }
    scenarioUser).1

/-- Witness for C5 at a concrete input: the spec scenario — after a single
create on the empty store, a fresh observer subscribes and its first
delivered snapshot is exactly that one record. -/
theorem subscribe_contract_witness :
    (0 : Nat) ∉ scenarioStore.subscribers ∧
    scenarioStore.data = [scenarioUser] ∧
    ((0 : Nat), [scenarioUser]) ∈ (dataInit scenarioStore (some 0)).2.1 ∧
    (dataInit scenarioStore (some 0)).2.2.isOk = true :=
  ⟨by decide, by decide,
   (subscribe_contract scenarioStore 0).2.2.1,
   (subscribe_contract scenarioStore 0).2.2.2⟩

/-- C8: load treats a missing slot and unparsable slot content as the empty
collection; the recovery is total (the parse error is caught inside load),
never a fatal error. -/
theorem load_recovers_empty (junk : String) :
    load .absent = ([] : List Record) ∧ load (.malformed junk) = [] :=
  ⟨rfl, rfl⟩

/-- C6: preference-store initialization computes the effective configuration
as defaults overridden by the persisted mapping (persisted values win, and
defaults fill exactly the keys the persisted mapping lacks), persists the
merged result, and invokes the supplied callback exactly once with the
effective configuration. -/
theorem preference_init_merge (persisted defaults : Config) :
    (∀ k v, persisted k = some v →
       (elemInit (elemLoadState persisted) defaults true).1.config k = some v) ∧
    (∀ k, persisted k = none →
       (elemInit (elemLoadState persisted) defaults true).1.config k =
         defaults k) ∧
    (elemInit (elemLoadState persisted) defaults true).1.stored =
      (elemInit (elemLoadState persisted) defaults true).1.config ∧
    (elemInit (elemLoadState persisted) defaults true).2 =
      [(elemInit (elemLoadState persisted) defaults true).1.config] := by
  refine ⟨?_, ?_, rfl, rfl⟩
  · intro k v hk
    simp [elemInit, elemLoadState, spread, hk]
  · intro k hk
    simp [elemInit, elemLoadState, spread, hk]

/-- Witness for C6 at a concrete input: the spec scenario — defaults carry
font_size 14, the persisted mapping carries font_size 18, and the effective
configuration carries 18. -/
theorem preference_init_merge_witness :
    (fun k => if k = "font_size" then some (JsVal.num 18) else none :
      Config) "font_size" = some (JsVal.num 18) ∧
    (elemInit
      (elemLoadState
        (fun k => if k = "font_size" then some (JsVal.num 18) else none))
      (fun k => if k = "font_size" then some (JsVal.num 14) else none)
      true).1.config "font_size" = some (JsVal.num 18) :=
  ⟨rfl,
   (preference_init_merge
     (fun k => if k = "font_size" then some (JsVal.num 18) else none)
     (fun k => if k = "font_size" then some (JsVal.num 14) else none)).1
     "font_size" (JsVal.num 18) rfl⟩

theorem applyPatches_exposed (s : ElemState) (ps : List Config) :
    (applyPatches s ps).exposed = s.exposed := by
  induction ps generalizing s with
  | nil => rfl
  | cons p ps ih => exact ih _

/-- C10: the exposed window.elementSdk.config property is bound once, at
module start, to the mapping loaded from storage; after initialization
merges the defaults and after any sequence of setConfig calls it still
yields the pre-merge, pre-update contents, so the registration submit
handler's read of the button label sees neither the merged defaults nor
later updates. -/
theorem exposed_config_frozen (persisted defaults : Config) (hasCb : Bool)
    (patches : List Config) (fallback : JsVal) :
    (applyPatches (elemInit (elemLoadState persisted) defaults hasCb).1
        patches).exposed = persisted ∧
    registerButtonLabel
        (applyPatches (elemInit (elemLoadState persisted) defaults hasCb).1
          patches) fallback =
      registerButtonLabel (elemLoadState persisted) fallback := by
  have h1 : (applyPatches (elemInit (elemLoadState persisted) defaults
      hasCb).1 patches).exposed = persisted := by
    rw [applyPatches_exposed]
    rfl
  exact ⟨h1, by rw [registerButtonLabel, h1]; rfl⟩

theorem splitOnComma_ne_nil (s : List Char) : splitOnComma s ≠ [] := by
  cases s with
  | nil => simp [splitOnComma]
  | cons c cs =>
    simp only [splitOnComma]
    split <;> simp

theorem not_comma_mem_splitOnComma (s : List Char) :
    ∀ e ∈ splitOnComma s, (',' : Char) ∉ e := by
  induction s with
  | nil =>
    intro e he
    simp only [splitOnComma, List.mem_singleton] at he
    simp [he]
  | cons c cs ih =>
    intro e he
    by_cases hc : c = ','
    · rw [splitOnComma, if_pos hc] at he
      rcases List.mem_cons.mp he with rfl | he2
      · simp
      · exact ih e he2
    · rw [splitOnComma, if_neg hc] at he
      rcases List.mem_cons.mp he with rfl | he2
      · intro hmem
        rcases List.mem_cons.mp hmem with h1 | h2
        · exact hc h1.symm
        · have hhd : (splitOnComma cs).headD [] ∈ splitOnComma cs := by
            cases hsp : splitOnComma cs with
            | nil => exact absurd hsp (splitOnComma_ne_nil cs)
            | cons p ps => simp
          exact ih _ hhd h2
      · exact ih e (List.mem_of_mem_tail he2)

theorem splitOnComma_append (x cs : List Char) (hx : (',' : Char) ∉ x) :
    splitOnComma (x ++ cs) =
      (x ++ (splitOnComma cs).headD []) :: (splitOnComma cs).tail := by
  induction x with
  | nil =>
    simp only [List.nil_append]
    cases hsp : splitOnComma cs with
    | nil => exact absurd hsp (splitOnComma_ne_nil cs)
    | cons p ps => simp
  | cons c x ih =>
    have hc : ¬(c = ',') := fun hcc => hx (by simp [hcc])
    have hx2 : (',' : Char) ∉ x := fun hmm => hx (List.mem_cons_of_mem _ hmm)
    rw [List.cons_append, splitOnComma, if_neg hc, ih hx2]
    simp

theorem splitOnComma_joinComma (l : List (List Char)) (hl : l ≠ [])
    (hcf : ∀ e ∈ l, (',' : Char) ∉ e) : splitOnComma (joinComma l) = l := by
  induction l with
  | nil => exact absurd rfl hl
  | cons x xs ih =>
    cases xs with
    | nil =>
      have hx : (',' : Char) ∉ x := hcf x (by simp)
      have happ := splitOnComma_append x [] hx
      simpa [joinComma, splitOnComma] using happ
    | cons y ys =>
      have hx : (',' : Char) ∉ x := hcf x (by simp)
      have hrest : ∀ e ∈ y :: ys, (',' : Char) ∉ e :=
        fun e he => hcf e (by simp [he])
      have hjoin : joinComma (x :: y :: ys) =
          x ++ ',' :: joinComma (y :: ys) := rfl
      rw [hjoin, splitOnComma_append x (',' :: joinComma (y :: ys)) hx]
      have hs : splitOnComma (',' :: joinComma (y :: ys)) =
          [] :: splitOnComma (joinComma (y :: ys)) := by
        simp [splitOnComma]
      rw [hs, ih (by simp) hrest]
      simp

theorem parseLikedBy_joinComma (l : List (List Char))
    (h : ∀ e ∈ l, (',' : Char) ∉ e ∧ e ≠ []) :
    parseLikedBy (joinComma l) = l := by
  cases l with
  | nil => rfl
  | cons x xs =>
    unfold parseLikedBy
    rw [splitOnComma_joinComma (x :: xs) (by simp) (fun e he => (h e he).1)]
    apply List.filter_eq_self.mpr
    intro e he
    cases e with
    | nil => exact absurd rfl (h _ he).2
    | cons a as => rfl

theorem parseLikedBy_entries (s : List Char) :
    ∀ e ∈ parseLikedBy s, (',' : Char) ∉ e ∧ e ≠ [] := by
  intro e he
  unfold parseLikedBy at he
  rw [List.mem_filter] at he
  refine ⟨not_comma_mem_splitOnComma s e he.1, ?_⟩
  intro hnil
  subst hnil
  simp at he

theorem toggleRecipe_of_mem (r : Record) (uid : List Char)
    (hm : uid ∈ parseLikedBy r.likedBy) :
    parseLikedBy (toggleRecipe r uid).likedBy =
      (parseLikedBy r.likedBy).erase uid ∧
    (toggleRecipe r uid).likes = some (max 0 (r.likes.getD 0 - 1)) := by
  have harr := parseLikedBy_entries r.likedBy
  constructor
  · simp only [toggleRecipe, if_pos hm]
    exact parseLikedBy_joinComma _
      (fun e he => harr e (List.mem_of_mem_erase he))
  · simp only [toggleRecipe, if_pos hm]

theorem toggleRecipe_of_not_mem (r : Record) (uid : List Char)
    (hm : uid ∉ parseLikedBy r.likedBy)
    (hne : uid ≠ []) (hnc : (',' : Char) ∉ uid) :
    parseLikedBy (toggleRecipe r uid).likedBy =
      parseLikedBy r.likedBy ++ [uid] ∧
    (toggleRecipe r uid).likes = some (r.likes.getD 0 + 1) := by
  have harr := parseLikedBy_entries r.likedBy
  constructor
  · simp only [toggleRecipe, if_neg hm]
    apply parseLikedBy_joinComma
    intro e he
    rcases List.mem_append.mp he with h1 | h2
    · exact harr e h1
    · rw [List.mem_singleton] at h2
      subst h2
      exact ⟨hnc, hne⟩
  · simp only [toggleRecipe, if_neg hm]

/-- Counterexample to C7 as stated: the recipe with likedBy "a,a" and like
count 1 — which equals the size of its liker set {a} — does not regain its
like count after user "a" toggles twice in succession: the count ends at 0. -/
theorem toggle_twice_counterexample :
    ((({ id := "r1", likes := some 1, likedBy := "a,a".toList } :
        Record).likes.getD 0 : Int) =
      ((likerSet ({ id := "r1", likes := some 1, likedBy := "a,a".toList } :
        Record).likedBy).length : Int)) ∧
    ¬ ((toggleRecipe (toggleRecipe
        { id := "r1", likes := some 1, likedBy := "a,a".toList }
        "a".toList) "a".toList).likes.getD 0 =
      ({ id := "r1", likes := some 1, likedBy := "a,a".toList } :
        Record).likes.getD 0) := by decide

/-- C7 amended: for every recipe whose liker-set string encodes a
duplicate-free identifier list and whose like count equals the size of its
liker set, and every user whose identifier is nonempty and contains no comma
separator, toggling twice restores the like count and the liker set, one
toggle by a non-liker adds the user and increments the count by one, and one
toggle by a current liker removes the user and decrements the count by one. -/
theorem toggle_twice_restores_amended (r : Record) (uid : List Char)
    (hnd : (parseLikedBy r.likedBy).Nodup)
    (hne : uid ≠ []) (hnc : (',' : Char) ∉ uid)
    (h : (r.likes.getD 0 : Int) = ((likerSet r.likedBy).length : Int)) :
    ((toggleRecipe (toggleRecipe r uid) uid).likes.getD 0 =
        r.likes.getD 0 ∧
      ∀ x, x ∈ likerSet (toggleRecipe (toggleRecipe r uid) uid).likedBy ↔
        x ∈ likerSet r.likedBy) ∧
    (uid ∉ likerSet r.likedBy →
      (toggleRecipe r uid).likes.getD 0 = r.likes.getD 0 + 1 ∧
      ∀ x, x ∈ likerSet (toggleRecipe r uid).likedBy ↔
        (x ∈ likerSet r.likedBy ∨ x = uid)) ∧
    (uid ∈ likerSet r.likedBy →
      (toggleRecipe r uid).likes.getD 0 = r.likes.getD 0 - 1 ∧
      ∀ x, x ∈ likerSet (toggleRecipe r uid).likedBy ↔
        (x ∈ likerSet r.likedBy ∧ x ≠ uid)) := by
  have hdd : likerSet r.likedBy = parseLikedBy r.likedBy := by
    rw [likerSet, List.dedup_eq_self.mpr hnd]
  rw [hdd] at h
  refine ⟨?_, ?_, ?_⟩
  · by_cases hm : uid ∈ parseLikedBy r.likedBy
    · obtain ⟨hp1, hl1⟩ := toggleRecipe_of_mem r uid hm
      have hn1 : 0 < (parseLikedBy r.likedBy).length :=
        List.length_pos_of_mem hm
      have hm2 : uid ∉ parseLikedBy (toggleRecipe r uid).likedBy := by
        rw [hp1, List.Nodup.mem_erase_iff hnd]
        simp
      obtain ⟨hp2, hl2⟩ :=
        toggleRecipe_of_not_mem (toggleRecipe r uid) uid hm2 hne hnc
      constructor
      · rw [hl2]
        show (toggleRecipe r uid).likes.getD 0 + 1 = r.likes.getD 0
        rw [hl1]
        show max 0 (r.likes.getD 0 - 1) + 1 = r.likes.getD 0
        rw [h, max_eq_right (by omega)]
        omega
      · intro x
        rw [likerSet, List.mem_dedup, hp2, hp1, hdd,
          List.mem_append, List.Nodup.mem_erase_iff hnd, List.mem_singleton]
        constructor
        · rintro (⟨_, hx⟩ | rfl)
          · exact hx
          · exact hm
        · intro hx
          by_cases hxu : x = uid
          · exact Or.inr hxu
          · exact Or.inl ⟨hxu, hx⟩
    · obtain ⟨hp1, hl1⟩ := toggleRecipe_of_not_mem r uid hm hne hnc
      have hm2 : uid ∈ parseLikedBy (toggleRecipe r uid).likedBy := by
        rw [hp1]
        simp
      obtain ⟨hp2, hl2⟩ := toggleRecipe_of_mem (toggleRecipe r uid) uid hm2
      have herase : (parseLikedBy r.likedBy ++ [uid]).erase uid =
          parseLikedBy r.likedBy := by
        rw [List.erase_append_right _ hm, List.erase_cons_head]
        simp
      constructor
      · rw [hl2]
        show max 0 ((toggleRecipe r uid).likes.getD 0 - 1) = r.likes.getD 0
        rw [hl1]
        show max 0 (r.likes.getD 0 + 1 - 1) = r.likes.getD 0
        rw [h, max_eq_right (by omega)]
        omega
      · intro x
        rw [likerSet, List.mem_dedup, hp2, hp1, herase, hdd]
  · intro hm0
    rw [hdd] at hm0
    obtain ⟨hp, hl⟩ := toggleRecipe_of_not_mem r uid hm0 hne hnc
    constructor
    · rw [hl]
      rfl
    · intro x
      rw [likerSet, List.mem_dedup, hp, hdd, List.mem_append,
        List.mem_singleton]
  · intro hm0
    rw [hdd] at hm0
    obtain ⟨hp, hl⟩ := toggleRecipe_of_mem r uid hm0
    have hn1 : 0 < (parseLikedBy r.likedBy).length :=
      List.length_pos_of_mem hm0
    constructor
    · rw [hl]
      show max 0 (r.likes.getD 0 - 1) = r.likes.getD 0 - 1
      rw [h, max_eq_right (by omega)]
    · intro x
      rw [likerSet, List.mem_dedup, hp, hdd, List.Nodup.mem_erase_iff hnd]
      tauto

/-- Witness for the amended C7 at a concrete input: the spec scenario — a
recipe with no likers, toggled twice by user u2, regains like count 0. -/
theorem toggle_twice_restores_witness :
    (parseLikedBy (({ id := "r1", rtype := "recipe", likes := some 0 } :
        Record).likedBy)).Nodup ∧
    (toggleRecipe (toggleRecipe
        { id := "r1", rtype := "recipe", likes := some 0 } "u2".toList)
        "u2".toList).likes.getD 0 =
      ({ id := "r1", rtype := "recipe", likes := some 0 } :
        Record).likes.getD 0 :=
  ⟨by decide,
   ((toggle_twice_restores_amended
     { id := "r1", rtype := "recipe", likes := some 0 } "u2".toList
     (by decide) (by decide) (by decide) (by decide)).1).1⟩

/-- Counterexample to C9 as stated: the recipe with likedBy "a,a" and like
count 1 — equal to its number of distinct liker identifiers — breaks the
equality after a single toggleLike by user "a": the count drops to 0 while
the liker set still has one distinct identifier. -/
theorem toggle_invariant_counterexample :
    ((({ id := "r2", likes := some 1, likedBy := "a,a".toList } :
        Record).likes.getD 0 : Int) =
      ((likerSet ({ id := "r2", likes := some 1, likedBy := "a,a".toList } :
        Record).likedBy).length : Int)) ∧
    ¬ (((toggleRecipe
        { id := "r2", likes := some 1, likedBy := "a,a".toList }
        "a".toList).likes.getD 0 : Int) =
      ((likerSet (toggleRecipe
        { id := "r2", likes := some 1, likedBy := "a,a".toList }
        "a".toList).likedBy).length : Int)) := by decide

/-- C9 amended: for every recipe whose liker-set string encodes a
duplicate-free identifier list and whose like count equals its number of
distinct identifiers, a toggleLike by a user whose identifier is nonempty
and comma-free preserves that equality — the count field and the liker-set
field move together in the same record write. -/
theorem toggle_preserves_like_count_amended (r : Record) (uid : List Char)
    (hnd : (parseLikedBy r.likedBy).Nodup)
    (hne : uid ≠ []) (hnc : (',' : Char) ∉ uid)
    (h : (r.likes.getD 0 : Int) = ((likerSet r.likedBy).length : Int)) :
    ((toggleRecipe r uid).likes.getD 0 : Int) =
      ((likerSet (toggleRecipe r uid).likedBy).length : Int) := by
  rw [likerSet, List.dedup_eq_self.mpr hnd] at h
  by_cases hm : uid ∈ parseLikedBy r.likedBy
  · obtain ⟨hp, hl⟩ := toggleRecipe_of_mem r uid hm
    have hn1 : 0 < (parseLikedBy r.likedBy).length :=
      List.length_pos_of_mem hm
    have hL : ((toggleRecipe r uid).likes.getD 0 : Int) =
        max 0 (r.likes.getD 0 - 1) := by
      rw [hl]
      rfl
    rw [hL, likerSet, hp, List.dedup_eq_self.mpr (hnd.erase uid),
      List.length_erase_of_mem hm, h, max_eq_right (by omega)]
    omega
  · obtain ⟨hp, hl⟩ := toggleRecipe_of_not_mem r uid hm hne hnc
    have hnodup2 : (parseLikedBy r.likedBy ++ [uid]).Nodup := by
      rw [List.nodup_append]
      refine ⟨hnd, List.nodup_singleton uid, ?_⟩
      intro a ha hb
      rw [List.mem_singleton] at hb
      subst hb
      exact hm ha
    have hL : ((toggleRecipe r uid).likes.getD 0 : Int) =
        r.likes.getD 0 + 1 := by
      rw [hl]
      rfl
    rw [hL, likerSet, hp, List.dedup_eq_self.mpr hnodup2,
      List.length_append, List.length_singleton, h]
    push_cast
    omega

/-- Witness for the amended C9 at a concrete input: a recipe liked by u1
with count 1, toggled by u2, ends with count 2 and two distinct likers. -/
theorem toggle_preserves_like_count_witness :
    (parseLikedBy ("u1".toList)).Nodup ∧
    ((toggleRecipe { id := "r9", likes := some 1, likedBy := "u1".toList }
        "u2".toList).likes.getD 0 : Int) =
      ((likerSet (toggleRecipe
        { id := "r9", likes := some 1, likedBy := "u1".toList }
        "u2".toList).likedBy).length : Int) :=
  ⟨by decide,
   toggle_preserves_like_count_amended
     { id := "r9", likes := some 1, likedBy := "u1".toList } "u2".toList
     (by decide) (by decide) (by decide) (by decide)⟩

end RecetaGram
